import Mathlib

/-
  Shallow embedding of the TURN allocation manager
  (src/turn/src/allocation/allocation_manager.rs).

  The Manager owns two maps: FiveTuple -> Allocation and String -> u16
  (reservations). HashMaps are embedded as association lists with unique
  keys maintained by the operations; stateful methods are embedded in
  state-passing style, returning the updated Manager together with the
  value the Rust method returns. Side effects on allocations reached
  through shared Arc handles (closing them) are represented by updating
  the allocation values held in the map or returned to the caller.
-/

/-- Error variants of crate Error surfaced by the manager code:
ErrLifetimeZero (line 60), ErrDupeFiveTuple (line 64), ErrClosed from
Allocation close, and generator errors represented as other codes
(the crate uses one flat error enum, so generator errors propagate
through the same type). -/
inductive Error where
  | errLifetimeZero
  | errDupeFiveTuple
  | errClosed
  | other (code : Nat)
deriving DecidableEq, Repr

/-- Modelled from the spec: FiveTuple is (protocol, src_addr, dst_addr)
with structural equality, used as a total map key (the FiveTuple source
file is not included). Addresses are (ip, port) pairs of numbers. -/
structure FiveTuple where
  protocol : Nat
  src_addr : Nat × Nat
  dst_addr : Nat × Nat
deriving DecidableEq, Repr

/-- Modelled from the spec: the fields of an Allocation the Manager
reads or sets (the Allocation source file is not included). It carries
the five tuple, the username text used by delete_allocations_by_username,
the sockets and relay address given at construction, and a closed flag:
close on an already-closed allocation is an error (AllocationClosed). -/
structure Allocation where
  turn_socket : Nat
  relay_socket : Nat
  relay_addr : Nat × Nat
  five_tuple : FiveTuple
  username : String
  closed : Bool
deriving DecidableEq, Repr

/-- Allocation construction as invoked at allocation_manager.rs lines
71-77: Allocation new with the turn socket, the relay socket and address
from the generator, the five tuple and the username; a fresh allocation
is not closed. -/
def Allocation.new (turn_socket relay_socket : Nat) (relay_addr : Nat × Nat)
    (five_tuple : FiveTuple) (username : String) : Allocation :=
  { turn_socket := turn_socket
    relay_socket := relay_socket
    relay_addr := relay_addr
    five_tuple := five_tuple
    username := username
    closed := false }

/-- Modelled from the spec: Allocation close fails with AllocationClosed
when the allocation is already closed, otherwise marks it closed
(releases the socket exactly once). -/
def Allocation.close (a : Allocation) : Except Error Allocation :=
  if a.closed then Except.error Error.errClosed
  else Except.ok { a with closed := true }

/-- Close an allocation discarding a failure: delete_allocation and
delete_allocations_by_username log and swallow close errors (lines
98-100 and 126-127), so the allocation value is left as it was when
close fails. -/
def Allocation.closeIgnoreErr (a : Allocation) : Allocation :=
  match a.close with
  | Except.ok a2 => a2
  | Except.error _ => a

/-- Association list lookup keyed by five tuple: HashMap get. -/
def findAlloc : List (FiveTuple × Allocation) → FiveTuple → Option Allocation
  | [], _ => none
  | p :: rest, k => if p.1 = k then some p.2 else findAlloc rest k

/-- Association list removal of a key: HashMap remove (drops every entry
with the key, which agrees with HashMap remove on unique keys). -/
def eraseAlloc (k : FiveTuple) : List (FiveTuple × Allocation) → List (FiveTuple × Allocation)
  | [] => []
  | p :: rest => if p.1 = k then eraseAlloc k rest else p :: eraseAlloc k rest

/-- Association list insertion: HashMap insert, replacing any entry
already stored under the key. -/
def insertAlloc (k : FiveTuple) (a : Allocation)
    (l : List (FiveTuple × Allocation)) : List (FiveTuple × Allocation) :=
  (k, a) :: eraseAlloc k l

/-- Manager state: the allocations map and the reservations map
(allocation_manager.rs lines 19-23). The relay address generator, a
boxed trait object in the source, is passed to the operations that use
it as a function argument. -/
structure Manager where
  allocations : List (FiveTuple × Allocation)
  reservations : List (String × Nat)

/-- The relay address generator contract: allocate_conn takes
(use_ipv4-independent) even_port and requested_port and yields a relay
socket and its bound address, or an error of the common crate error
type. -/
def RelayGen : Type := Bool → Nat → Except Error (Nat × (Nat × Nat))

/-- Modelled from the spec: generator errors describe relay allocation
failures (port in use, address unavailable, network down), a taxonomy
disjoint from the manager error variants; no generator implementation
fabricates a manager error such as DuplicateFiveTuple or LifetimeZero
(the generator implementations are not included in the sources). -/
def GenWellFormed (gen : RelayGen) : Prop :=
  ∀ ep rp e, gen ep rp = Except.error e → ∃ c, e = Error.other c

/-- get_allocation (lines 45-48): fetch the allocation matching the
passed five tuple from the map. -/
def Manager.get_allocation (m : Manager) (five_tuple : FiveTuple) : Option Allocation :=
  findAlloc m.allocations five_tuple

/-- create_allocation (lines 51-91), in state-passing style. The checks
happen in source order: lifetime zero (lines 59-61), duplicate five
tuple (lines 63-65), then the generator call allocate_conn true
requested_port whose error propagates unchanged (lines 67-70); on
success the new allocation is inserted under the five tuple and
returned (lines 71-90). The manager state is returned alongside the
result so that effects on the map are visible on every path. -/
def Manager.create_allocation (gen : RelayGen) (m : Manager)
    (five_tuple : FiveTuple) (turn_socket : Nat) (requested_port : Nat)
    (lifetime : Nat) (username : String) :
    Manager × Except Error Allocation :=
  if lifetime = 0 then
    (m, Except.error Error.errLifetimeZero)
  else if (m.get_allocation five_tuple).isSome then
    (m, Except.error Error.errDupeFiveTuple)
  else
    match gen true requested_port with
    | Except.error e => (m, Except.error e)
    | Except.ok (relay_socket, relay_addr) =>
      let a := Allocation.new turn_socket relay_socket relay_addr five_tuple username
      ({ m with allocations := insertAlloc five_tuple a m.allocations },
       Except.ok a)

/-- delete_allocation (lines 94-102): remove the entry for the five
tuple; if an allocation was stored there, close it, swallowing a close
error. The closed allocation (the state of the handle the map used to
hold) is returned so the close effect is observable; none is returned
when no entry existed. -/
def Manager.delete_allocation (m : Manager) (five_tuple : FiveTuple) :
    Manager × Option Allocation :=
  match m.get_allocation five_tuple with
  | none => (m, none)
  | some a =>
    ({ m with allocations := eraseAlloc five_tuple m.allocations },
     some a.closeIgnoreErr)

/-- delete_allocations_by_username (lines 105-131): one critical section
retains exactly the entries whose username differs from name and
collects the removed allocations; the removed ones are then closed
outside the lock with errors swallowed. The closed removed allocations
are returned. -/
def Manager.delete_allocations_by_username (m : Manager) (name : String) :
    Manager × List Allocation :=
  let to_delete := (m.allocations.filter (fun p => p.2.username = name)).map Prod.snd
  ({ m with allocations := m.allocations.filter (fun p => ¬(p.2.username = name)) },
   to_delete.map Allocation.closeIgnoreErr)

/-- The loop of Manager close (lines 37-41): close each stored
allocation in iteration order; the question-mark operator aborts the
loop at the first close error, leaving the remaining allocations
untouched, while closes already performed persist (they acted on the
shared allocation handles). Returns the updated entries and the first
error if any. -/
def closeValues : List (FiveTuple × Allocation) →
    List (FiveTuple × Allocation) × Option Error
  | [] => ([], none)
  | (k, a) :: rest =>
    match a.close with
    | Except.error e => ((k, a) :: rest, some e)
    | Except.ok a2 =>
      let r := closeValues rest
      ((k, a2) :: r.1, r.2)

/-- Manager close (lines 36-42): closes the allocations it manages by
iterating the map under the lock; a close error is propagated and stops
the iteration. The map itself keeps its entries (close does not remove
them). -/
def Manager.close (m : Manager) : Manager × Option Error :=
  let r := closeValues m.allocations
  ({ m with allocations := r.1 }, r.2)

/-- Reservation lookup on the reservations list: HashMap get. -/
def findRes : List (String × Nat) → String → Option Nat
  | [], _ => none
  | p :: rest, t => if p.1 = t then some p.2 else findRes rest t

/-- Reservation removal: HashMap remove by token. -/
def eraseRes (t : String) : List (String × Nat) → List (String × Nat)
  | [] => []
  | p :: rest => if p.1 = t then eraseRes t rest else p :: eraseRes t rest

/-- Reservation state for the timed reservation claims: the reservations
map of the Manager together with the multiset of detached timer tasks
spawned by create_reservation, each recorded as (deadline, token). -/
structure ReservationState where
  reservations : List (String × Nat)
  timers : List (Nat × String)
deriving DecidableEq, Repr

/-- create_reservation (lines 134-151) at instant now: spawns a timer
task that will fire 30 seconds later, then inserts token -> port into
the reservations map, replacing any value already stored under the
token. -/
def Manager.create_reservation (s : ReservationState) (now : Nat)
    (reservation_token : String) (port : Nat) : ReservationState :=
  { reservations := (reservation_token, port) :: eraseRes reservation_token s.reservations
    timers := (now + 30, reservation_token) :: s.timers }

/-- The body of the spawned reservation timer (lines 141-146): when the
sleep elapses it removes its token from the reservations map
unconditionally, whatever value is stored there. The fired timer is
discharged from the pending set. -/
def fireReservationTimer (s : ReservationState) (timer : Nat × String) :
    ReservationState :=
  { reservations := eraseRes timer.2 s.reservations
    timers := s.timers.erase timer }

/-- get_reservation (lines 154-157): the port stored for the token. -/
def Manager.get_reservation (s : ReservationState) (reservation_token : String) :
    Option Nat :=
  findRes s.reservations reservation_token

/-
  Interleaving model for the concurrency claim about create_allocation.
  A create_allocation call touches the allocations map in exactly two
  critical sections: the duplicate check (the lock inside get_allocation,
  taken at line 63) and the insertion (the lock block at lines 85-88).
  Between them the task awaits the relay generator, Allocation start and
  the packet handler, all suspension points where other tasks run. Each
  critical section is one atomic step; the generator call of the
  modelled task is taken to succeed, producing the allocation the task
  will insert.
-/

instance : DecidableEq (Except Error Allocation) := fun x y =>
  match x, y with
  | Except.ok a, Except.ok b =>
    if h : a = b then isTrue (by rw [h])
    else isFalse (fun hc => h (by cases hc; rfl))
  | Except.error a, Except.error b =>
    if h : a = b then isTrue (by rw [h])
    else isFalse (fun hc => h (by cases hc; rfl))
  | Except.ok _, Except.error _ => isFalse (fun hc => by cases hc)
  | Except.error _, Except.ok _ => isFalse (fun hc => by cases hc)

/-- Control state of an in-flight create_allocation call: before its
duplicate check, between the check and the insertion, or finished with
the value the call returns. -/
inductive CreatePhase where
  | start
  | passedCheck
  | done (r : Except Error Allocation)
deriving DecidableEq, Repr

/-- An in-flight create_allocation call for a key: the allocation it
will build from the successful generator result, and its phase. -/
structure CreateTask where
  key : FiveTuple
  alloc : Allocation
  phase : CreatePhase
deriving DecidableEq, Repr

/-- One atomic step of a create_allocation task against the shared
allocations map. In phase start it performs the duplicate check of
lines 63-65: if the key is present the call finishes with
ErrDupeFiveTuple, otherwise it proceeds past the check. In phase
passedCheck it performs the insertion of lines 85-88 and finishes
successfully. A finished task does nothing. -/
def stepCreate (mp : List (FiveTuple × Allocation)) (t : CreateTask) :
    List (FiveTuple × Allocation) × CreateTask :=
  match t.phase with
  | CreatePhase.start =>
    if (findAlloc mp t.key).isSome then
      (mp, { t with phase := CreatePhase.done (Except.error Error.errDupeFiveTuple) })
    else
      (mp, { t with phase := CreatePhase.passedCheck })
  | CreatePhase.passedCheck =>
    (insertAlloc t.key t.alloc mp,
     { t with phase := CreatePhase.done (Except.ok t.alloc) })
  | CreatePhase.done _ => (mp, t)

/-- Run a schedule: each entry picks the task that executes its next
atomic step. Out-of-range indices do nothing. -/
def runSched (mp : List (FiveTuple × Allocation)) (tasks : List CreateTask) :
    List Nat → List (FiveTuple × Allocation) × List CreateTask
  | [] => (mp, tasks)
  | i :: rest =>
    match tasks.get? i with
    | none => runSched mp tasks rest
    | some t =>
      let r := stepCreate mp t
      runSched r.1 (tasks.set i r.2) rest

/-- A sample five tuple for concrete counterexamples and witnesses. -/
def sampleTuple : FiveTuple :=
  { protocol := 17, src_addr := (1, 1000), dst_addr := (2, 3478) }

/-- A second sample five tuple, distinct from sampleTuple. -/
def sampleTuple2 : FiveTuple :=
  { protocol := 17, src_addr := (3, 2000), dst_addr := (2, 3478) }

/-- A sample open allocation stored under sampleTuple. -/
def sampleAlloc : Allocation :=
  Allocation.new 7 8 (2, 40000) sampleTuple "user"

/-- A second sample open allocation, for the same key as sampleAlloc. -/
def sampleAlloc2 : Allocation :=
  Allocation.new 7 9 (2, 40002) sampleTuple "user"

/-- A sample open allocation stored under sampleTuple2 with another
username. -/
def sampleAllocB : Allocation :=
  Allocation.new 7 10 (2, 40004) sampleTuple2 "user2"

/-- A generator for witnesses: always grants socket 8 at address
(2, 40000). -/
def sampleGen : RelayGen := fun _ _ => Except.ok (8, (2, 40000))

/-- A generator for witnesses that always fails with a relay allocation
failure. -/
def sampleGenErr : RelayGen := fun _ _ => Except.error (Error.other 55)

/-- The empty manager, as built by Manager new. -/
def sampleManager : Manager := { allocations := [], reservations := [] }

/-- A manager holding an already-closed allocation followed by an open
one, reachable by running Manager close once and then creating a new
allocation. -/
def managerMixed : Manager :=
  { allocations := [(sampleTuple, { sampleAlloc with closed := true }),
                    (sampleTuple2, sampleAllocB)]
    reservations := [] }

/-- A sample reservation token. -/
def tokenT : String := "t"

/-- A sample username. -/
def userName : String := "user"

/-- A manager holding one open allocation under sampleTuple. -/
def managerOne : Manager :=
  { allocations := [(sampleTuple, sampleAlloc)], reservations := [] }

/-- A second failing generator, agreeing with sampleGenErr on requested
port 0 but not elsewhere. -/
def sampleGenErr2 : RelayGen := fun _ rp =>
  if rp = 0 then Except.error (Error.other 55) else Except.ok (9, (9, 9))

/-- Lemmas about the association list operations. -/
theorem findAlloc_insertAlloc_self (l : List (FiveTuple × Allocation))
    (k : FiveTuple) (a : Allocation) : findAlloc (insertAlloc k a l) k = some a := by
  simp [insertAlloc, findAlloc]

theorem findAlloc_eraseAlloc_self (l : List (FiveTuple × Allocation))
    (k : FiveTuple) : findAlloc (eraseAlloc k l) k = none := by
  induction l with
  | nil => rfl
  | cons p rest ih =>
    by_cases h : p.1 = k
    · simpa [eraseAlloc, h] using ih
    · simpa [eraseAlloc, findAlloc, h] using ih

theorem closeIgnoreErr_closed (a : Allocation) :
    (Allocation.closeIgnoreErr a).closed = true := by
  unfold Allocation.closeIgnoreErr Allocation.close
  by_cases h : a.closed
  · simp [h]
  · simp [h]

theorem findAlloc_mem {l : List (FiveTuple × Allocation)} {k : FiveTuple}
    {a : Allocation} (h : findAlloc l k = some a) : (k, a) ∈ l := by
  induction l with
  | nil => simp [findAlloc] at h
  | cons p rest ih =>
    by_cases hp : p.1 = k
    · simp [findAlloc, hp] at h
      subst hp
      subst h
      exact List.mem_cons_self _ _
    · simp [findAlloc, hp] at h
      exact List.mem_cons_of_mem _ (ih h)

theorem mem_findAlloc {l : List (FiveTuple × Allocation)} {k : FiveTuple}
    {a : Allocation} (hnd : (l.map Prod.fst).Nodup) (h : (k, a) ∈ l) :
    findAlloc l k = some a := by
  induction l with
  | nil => simp at h
  | cons p rest ih =>
    rcases List.mem_cons.mp h with h1 | h1
    · subst h1
      simp [findAlloc]
    · have hk : p.1 ≠ k := by
        intro he
        have : p.1 ∈ rest.map Prod.fst := List.mem_map.mpr ⟨(k, a), h1, by simp [he]⟩
        exact (List.nodup_cons.mp hnd).1 this
      simp [findAlloc, hk]
      exact ih (List.nodup_cons.mp hnd).2 h1


/-- Claim C2: after a create_allocation call on five tuple k that
returns successfully with handle a and updated manager state m2,
get_allocation on k in m2 returns some a, the same handle. -/
theorem claim_C2 (gen : RelayGen) (m : Manager) (k : FiveTuple)
    (ts rp lt : Nat) (u : String) (m2 : Manager) (a : Allocation)
    (h : Manager.create_allocation gen m k ts rp lt u = (m2, Except.ok a)) :
    Manager.get_allocation m2 k = some a := by
  unfold Manager.create_allocation at h
  by_cases h0 : lt = 0
  · simp [h0] at h
  · rw [if_neg h0] at h
    by_cases h1 : (m.get_allocation k).isSome = true
    · simp [h1] at h
    · rw [if_neg h1] at h
      rcases hgen : gen true rp with e | ⟨rs, ra⟩
      · rw [hgen] at h
        simp at h
      · rw [hgen] at h
        simp at h
        obtain ⟨hm, ha⟩ := h
        subst hm
        subst ha
        simp [Manager.get_allocation, findAlloc_insertAlloc_self]

theorem claim_C2_witness :
    Manager.create_allocation sampleGen sampleManager sampleTuple 7 0 600 userName =
      (managerOne, Except.ok sampleAlloc) ∧
    Manager.get_allocation managerOne sampleTuple = some sampleAlloc :=
  ⟨rfl, claim_C2 sampleGen sampleManager sampleTuple 7 0 600 userName managerOne sampleAlloc rfl⟩

/-- Claim C5: create_allocation returns the LifetimeZero error exactly
when the lifetime argument is zero (for a well formed relay generator,
whose failures are relay allocation failures). -/
theorem claim_C5 (gen : RelayGen) (m : Manager) (k : FiveTuple)
    (ts rp lt : Nat) (u : String) (hg : GenWellFormed gen) :
    ((Manager.create_allocation gen m k ts rp lt u).2 =
      Except.error Error.errLifetimeZero) ↔ lt = 0 := by
  constructor
  · intro h
    by_contra h0
    unfold Manager.create_allocation at h
    rw [if_neg h0] at h
    by_cases h1 : (m.get_allocation k).isSome = true
    · simp [h1] at h
    · rw [if_neg h1] at h
      rcases hgen : gen true rp with e | ⟨rs, ra⟩
      · obtain ⟨c, hc⟩ := hg true rp e hgen
        subst hc
        rw [hgen] at h
        simp at h
      · rw [hgen] at h
        simp at h
  · intro h
    subst h
    simp [Manager.create_allocation]

theorem claim_C5_witness :
    GenWellFormed sampleGen ∧
    (((Manager.create_allocation sampleGen sampleManager sampleTuple 7 0 0 userName).2 =
      Except.error Error.errLifetimeZero) ↔ (0 : Nat) = 0) :=
  ⟨fun ep rp e h => by simp [sampleGen] at h,
   claim_C5 sampleGen sampleManager sampleTuple 7 0 0 userName
     (fun ep rp e h => by simp [sampleGen] at h)⟩

/-- Claim C10: whenever create_allocation returns an error, the manager
state, and in particular the allocation map, is exactly the state
passed in: no error path inserts, removes or replaces an entry. -/
theorem claim_C10 (gen : RelayGen) (m : Manager) (k : FiveTuple)
    (ts rp lt : Nat) (u : String) (e : Error)
    (h : (Manager.create_allocation gen m k ts rp lt u).2 = Except.error e) :
    (Manager.create_allocation gen m k ts rp lt u).1 = m := by
  unfold Manager.create_allocation at h ⊢
  by_cases h0 : lt = 0
  · rw [if_pos h0]
  · rw [if_neg h0] at h ⊢
    by_cases h1 : (m.get_allocation k).isSome = true
    · rw [if_pos h1]
    · rw [if_neg h1] at h ⊢
      rcases hgen : gen true rp with e2 | ⟨rs, ra⟩
      · rfl
      · rw [hgen] at h
        simp at h

theorem claim_C10_witness :
    (Manager.create_allocation sampleGenErr sampleManager sampleTuple 7 0 5 userName).2 =
      Except.error (Error.other 55) ∧
    (Manager.create_allocation sampleGenErr sampleManager sampleTuple 7 0 5 userName).1 =
      sampleManager :=
  ⟨rfl, claim_C10 sampleGenErr sampleManager sampleTuple 7 0 5 userName (Error.other 55) rfl⟩

/-- Claim C8: create_allocation consults the relay address generator
only through the single call allocate_conn true requested_port, so two
generators agreeing on that argument pair give identical results; and
when that call fails, the very same error value is returned to the
caller unchanged. -/
theorem claim_C8 (g1 g2 : RelayGen) (m : Manager) (k : FiveTuple)
    (ts rp lt : Nat) (u : String) (e : Error)
    (hgg : g1 true rp = g2 true rp)
    (hlt : lt ≠ 0) (hnone : Manager.get_allocation m k = none)
    (herr : g1 true rp = Except.error e) :
    Manager.create_allocation g1 m k ts rp lt u =
      Manager.create_allocation g2 m k ts rp lt u ∧
    (Manager.create_allocation g1 m k ts rp lt u).2 = Except.error e := by
  have hs : ¬((m.get_allocation k).isSome = true) := by
    simp [Manager.get_allocation] at hnone ⊢
    simp [hnone]
  constructor
  · unfold Manager.create_allocation
    rw [hgg]
  · unfold Manager.create_allocation
    rw [if_neg hlt, if_neg hs, herr]

theorem claim_C8_witness :
    sampleGenErr true 0 = sampleGenErr2 true 0 ∧
    sampleGenErr true 0 = Except.error (Error.other 55) ∧
    (Manager.create_allocation sampleGenErr sampleManager sampleTuple 7 0 5 userName =
      Manager.create_allocation sampleGenErr2 sampleManager sampleTuple 7 0 5 userName ∧
    (Manager.create_allocation sampleGenErr sampleManager sampleTuple 7 0 5 userName).2 =
      Except.error (Error.other 55)) :=
  ⟨rfl, rfl,
   claim_C8 sampleGenErr sampleGenErr2 sampleManager sampleTuple 7 0 5 userName
     (Error.other 55) rfl (by decide) rfl rfl⟩

/-- Claim C1, counterexample: in a manager state whose map already
holds an allocation under sampleTuple, a create_allocation call for
that key with lifetime zero does not return DuplicateFiveTuple; the
lifetime check of lines 59-61 runs first and the call returns
LifetimeZero instead, refuting the claim as stated. -/
theorem claim_C1_counterexample :
    (Manager.get_allocation managerOne sampleTuple).isSome = true ∧
    (Manager.create_allocation sampleGen managerOne sampleTuple 7 0 0 userName).2 =
      Except.error Error.errLifetimeZero ∧
    (Manager.create_allocation sampleGen managerOne sampleTuple 7 0 0 userName).2 ≠
      Except.error Error.errDupeFiveTuple := by
  refine ⟨rfl, rfl, ?_⟩
  decide

/-- Claim C1, amended: for calls with non-zero lifetime (and a well
formed relay generator), create_allocation returns DuplicateFiveTuple
exactly when an allocation keyed by the five tuple is already present;
with lifetime zero the LifetimeZero check precedes the duplicate
check. -/
theorem claim_C1_amended (gen : RelayGen) (m : Manager) (k : FiveTuple)
    (ts rp lt : Nat) (u : String) (hg : GenWellFormed gen) (hlt : lt ≠ 0) :
    ((Manager.create_allocation gen m k ts rp lt u).2 =
      Except.error Error.errDupeFiveTuple) ↔
      (m.get_allocation k).isSome = true := by
  constructor
  · intro h
    by_contra h1
    unfold Manager.create_allocation at h
    rw [if_neg hlt, if_neg h1] at h
    rcases hgen : gen true rp with e | ⟨rs, ra⟩
    · obtain ⟨c, hc⟩ := hg true rp e hgen
      subst hc
      rw [hgen] at h
      simp at h
    · rw [hgen] at h
      simp at h
  · intro h1
    unfold Manager.create_allocation
    rw [if_neg hlt, if_pos h1]

theorem claim_C1_amended_witness :
    GenWellFormed sampleGen ∧ (5 : Nat) ≠ 0 ∧
    (((Manager.create_allocation sampleGen managerOne sampleTuple 7 0 5 userName).2 =
      Except.error Error.errDupeFiveTuple) ↔
      (Manager.get_allocation managerOne sampleTuple).isSome = true) :=
  ⟨fun ep rp e h => by simp [sampleGen] at h, by decide,
   claim_C1_amended sampleGen managerOne sampleTuple 7 0 5 userName
     (fun ep rp e h => by simp [sampleGen] at h) (by decide)⟩

theorem findRes_eraseRes_self (l : List (String × Nat)) (t : String) :
    findRes (eraseRes t l) t = none := by
  induction l with
  | nil => rfl
  | cons p rest ih =>
    by_cases h : p.1 = t
    · simpa [eraseRes, h] using ih
    · simpa [eraseRes, findRes, h] using ih

theorem nodup_key_inj {l : List (FiveTuple × Allocation)}
    (hnd : (l.map Prod.fst).Nodup) {k : FiveTuple} {a b : Allocation}
    (ha : (k, a) ∈ l) (hb : (k, b) ∈ l) : a = b := by
  have h1 := mem_findAlloc hnd ha
  have h2 := mem_findAlloc hnd hb
  rw [h1] at h2
  exact Option.some.inj h2

theorem delete_allocation_absent (m : Manager) (k : FiveTuple)
    (h : m.get_allocation k = none) : Manager.delete_allocation m k = (m, none) := by
  unfold Manager.delete_allocation
  rw [h]

theorem closeValues_all_open (l : List (FiveTuple × Allocation))
    (h : ∀ p ∈ l, p.2.closed = false) :
    closeValues l = (l.map (fun p => (p.1, { p.2 with closed := true })), none) := by
  induction l with
  | nil => rfl
  | cons p rest ih =>
    obtain ⟨k, a⟩ := p
    have ha : a.closed = false := h (k, a) (List.mem_cons_self _ _)
    have hrest := ih (fun q hq => h q (List.mem_cons_of_mem _ hq))
    simp [closeValues, Allocation.close, ha, hrest]

/-- Claim C6: delete_allocation removes the entry keyed by the five
tuple, so a following get_allocation returns nothing; it closes the
removed allocation exactly when one was present (the returned handle is
the stored allocation after close, and it is marked closed); and a
second delete on the same key is a no-op that changes nothing and
closes nothing. -/
theorem claim_C6 (m : Manager) (k : FiveTuple) :
    Manager.get_allocation (Manager.delete_allocation m k).1 k = none ∧
    (Manager.delete_allocation m k).2 =
      (Manager.get_allocation m k).map Allocation.closeIgnoreErr ∧
    Option.all (fun a => a.closed) (Manager.delete_allocation m k).2 = true ∧
    Manager.delete_allocation (Manager.delete_allocation m k).1 k =
      ((Manager.delete_allocation m k).1, none) := by
  cases hk : Manager.get_allocation m k with
  | none =>
    simp [Manager.delete_allocation, hk]
  | some a =>
    have hk2 : findAlloc m.allocations k = some a := hk
    have h1 : Manager.get_allocation (Manager.delete_allocation m k).1 k = none := by
      simp [Manager.delete_allocation, Manager.get_allocation, hk2, findAlloc_eraseAlloc_self]
    refine ⟨h1, ?_, ?_, ?_⟩
    · simp [Manager.delete_allocation, hk]
    · simp [Manager.delete_allocation, hk, closeIgnoreErr_closed]
    · exact delete_allocation_absent _ k h1

/-- Claim C3, counterexample: create a reservation for token t at
instant 0 (timer deadline 30) and overwrite it at instant 10 (new
deadline 40). The overwritten reservation's timer is still pending and,
when it fires at instant 30, before the new deadline 40, it removes the
token unconditionally: the new value port 2 disappears from the map, so
the older timer does not fire against an absent key and its effect is
observable. -/
theorem claim_C3_counterexample :
    Manager.get_reservation
      (Manager.create_reservation
        (Manager.create_reservation { reservations := [], timers := [] } 0 tokenT 1)
        10 tokenT 2) tokenT = some 2 ∧
    (30, tokenT) ∈ (Manager.create_reservation
        (Manager.create_reservation { reservations := [], timers := [] } 0 tokenT 1)
        10 tokenT 2).timers ∧
    30 < 10 + 30 ∧
    Manager.get_reservation
      (fireReservationTimer
        (Manager.create_reservation
          (Manager.create_reservation { reservations := [], timers := [] } 0 tokenT 1)
          10 tokenT 2)
        (30, tokenT)) tokenT = none := by
  decide

/-- Claim C3, amended: a second create_reservation with the same token
overwrites the stored value, so get_reservation returns the new port,
and the older timer stays pending independently; but a reservation
timer, when it fires, removes its token from the map unconditionally,
whatever value is stored, so an overwritten reservation's timer deletes
the new value whenever its own deadline comes first. -/
theorem claim_C3_amended (s s2 : ReservationState) (now d p : Nat) (t : String) :
    Manager.get_reservation (Manager.create_reservation s now t p) t = some p ∧
    (now + 30, t) ∈ (Manager.create_reservation s now t p).timers ∧
    Manager.get_reservation (fireReservationTimer s2 (d, t)) t = none := by
  refine ⟨?_, ?_, ?_⟩
  · simp [Manager.create_reservation, Manager.get_reservation, findRes]
  · simp [Manager.create_reservation]
  · simp [fireReservationTimer, Manager.get_reservation, findRes_eraseRes_self]

/-- Claim C4, counterexample: in a map holding an already-closed
allocation first and an open allocation second, Manager close stops at
the first close error, so the second allocation is left open and a
second close on it succeeds rather than returning an error. -/
theorem claim_C4_counterexample :
    (Manager.close managerMixed).2 = some Error.errClosed ∧
    Manager.get_allocation (Manager.close managerMixed).1 sampleTuple2 = some sampleAllocB ∧
    sampleAllocB.closed = false ∧
    Allocation.close sampleAllocB = Except.ok { sampleAllocB with closed := true } := by
  decide

/-- Claim C4, amended: Manager close closes the stored allocations in
iteration order, stopping at and returning the first close error, so
allocations after a failing one stay open; when every allocation in the
map is open at the time of the call, no close fails, every stored
allocation ends up closed, and a second close on each previously-held
allocation returns an error. -/
theorem claim_C4_amended (m : Manager)
    (h : m.allocations.all (fun p => !p.2.closed) = true) :
    (Manager.close m).2 = none ∧
    (Manager.close m).1.allocations =
      m.allocations.map (fun p => (p.1, { p.2 with closed := true })) ∧
    (Manager.close m).1.allocations.all
      (fun p => Allocation.close p.2 = Except.error Error.errClosed) = true := by
  have h2 : ∀ p ∈ m.allocations, p.2.closed = false := by
    intro p hp
    have h3 := List.all_eq_true.mp h p hp
    simpa using h3
  have hc := closeValues_all_open m.allocations h2
  refine ⟨?_, ?_, ?_⟩
  · simp [Manager.close, hc]
  · simp [Manager.close, hc]
  · simp only [Manager.close, hc]
    simp [List.all_eq_true, Allocation.close]

theorem claim_C4_amended_witness :
    managerOne.allocations.all (fun p => !p.2.closed) = true ∧
    ((Manager.close managerOne).2 = none ∧
     (Manager.close managerOne).1.allocations =
       managerOne.allocations.map (fun p => (p.1, { p.2 with closed := true })) ∧
     (Manager.close managerOne).1.allocations.all
       (fun p => Allocation.close p.2 = Except.error Error.errClosed) = true) :=
  ⟨by decide, claim_C4_amended managerOne (by decide)⟩

/-- Claim C7: after delete_allocations_by_username with name u, every
allocation remaining in the map has a username different from u; every
entry whose allocation had username u before the call is absent (its
key no longer resolves); and every entry with another username is still
retrievable unchanged under its key. Keys are assumed unique, the
invariant the HashMap maintains. -/
theorem claim_C7 (m : Manager) (u : String)
    (hnd : (m.allocations.map Prod.fst).Nodup) :
    (Manager.delete_allocations_by_username m u).1.allocations.all
      (fun p => p.2.username ≠ u) = true ∧
    m.allocations.all (fun p =>
      p.2.username ≠ u ∨
        Manager.get_allocation (Manager.delete_allocations_by_username m u).1 p.1 =
          none) = true ∧
    m.allocations.all (fun p =>
      p.2.username = u ∨
        Manager.get_allocation (Manager.delete_allocations_by_username m u).1 p.1 =
          some p.2) = true := by
  have hmap : (Manager.delete_allocations_by_username m u).1.allocations =
      m.allocations.filter (fun p => ¬(p.2.username = u)) := rfl
  refine ⟨?_, ?_, ?_⟩
  · rw [hmap]
    simp only [List.all_eq_true, decide_eq_true_eq]
    intro p hp
    have := (List.mem_filter.mp hp).2
    simpa using this
  · simp only [List.all_eq_true, decide_eq_true_eq]
    intro p hp
    by_cases hu : p.2.username = u
    · right
      cases hfind : Manager.get_allocation (Manager.delete_allocations_by_username m u).1 p.1 with
      | none => rfl
      | some b =>
        have hb : (p.1, b) ∈ (Manager.delete_allocations_by_username m u).1.allocations :=
          findAlloc_mem hfind
        rw [hmap] at hb
        have hbm := List.mem_filter.mp hb
        have hbu : ¬(b.username = u) := by simpa using hbm.2
        obtain ⟨k0, a0⟩ := p
        have hab : a0 = b := nodup_key_inj hnd hp hbm.1
        exact absurd (hab ▸ hu) hbu
    · left
      exact hu
  · simp only [List.all_eq_true, decide_eq_true_eq]
    intro p hp
    by_cases hu : p.2.username = u
    · left
      exact hu
    · right
      have hndf : ((m.allocations.filter (fun p => ¬(p.2.username = u))).map
          Prod.fst).Nodup :=
        ((List.filter_sublist _).map Prod.fst).nodup hnd
      have hpin : p ∈ m.allocations.filter (fun p => ¬(p.2.username = u)) :=
        List.mem_filter.mpr ⟨hp, by simpa using hu⟩
      have : findAlloc (m.allocations.filter (fun p => ¬(p.2.username = u))) p.1 =
          some p.2 := by
        obtain ⟨k0, a0⟩ := p
        exact mem_findAlloc hndf hpin
      rw [show Manager.get_allocation (Manager.delete_allocations_by_username m u).1 p.1 =
        findAlloc (Manager.delete_allocations_by_username m u).1.allocations p.1 from rfl,
        hmap]
      exact this

theorem claim_C7_witness :
    (managerMixed.allocations.map Prod.fst).Nodup ∧
    ((Manager.delete_allocations_by_username managerMixed userName).1.allocations.all
      (fun p => p.2.username ≠ userName) = true ∧
    managerMixed.allocations.all (fun p =>
      p.2.username ≠ userName ∨
        Manager.get_allocation
          (Manager.delete_allocations_by_username managerMixed userName).1 p.1 =
          none) = true ∧
    managerMixed.allocations.all (fun p =>
      p.2.username = userName ∨
        Manager.get_allocation
          (Manager.delete_allocations_by_username managerMixed userName).1 p.1 =
          some p.2) = true) :=
  ⟨by decide, claim_C7 managerMixed userName (by decide)⟩

/-- Claim C9, counterexample: an interleaving of two create_allocation
calls for the same five tuple in which both pass the duplicate check
before either inserts. Both calls finish successfully (the second
insertion silently replaces the first allocation in the map), so the
check-then-insert of create_allocation is not one atomic section. -/
theorem claim_C9_counterexample :
    (runSched [] [{ key := sampleTuple, alloc := sampleAlloc, phase := CreatePhase.start },
                  { key := sampleTuple, alloc := sampleAlloc2, phase := CreatePhase.start }]
        [0, 1, 0, 1]).2 =
      [{ key := sampleTuple, alloc := sampleAlloc,
         phase := CreatePhase.done (Except.ok sampleAlloc) },
       { key := sampleTuple, alloc := sampleAlloc2,
         phase := CreatePhase.done (Except.ok sampleAlloc2) }] ∧
    (runSched [] [{ key := sampleTuple, alloc := sampleAlloc, phase := CreatePhase.start },
                  { key := sampleTuple, alloc := sampleAlloc2, phase := CreatePhase.start }]
        [0, 1, 0, 1]).1 = [(sampleTuple, sampleAlloc2)] :=
  ⟨rfl, rfl⟩

/-- Claim C9, amended: only the duplicate check and the map insertion
are individually atomic; between them create_allocation awaits the
relay generator and allocation startup, so for a key absent from the
map, the interleaving in which both calls check before either inserts
makes both calls for the same five tuple succeed, the later insertion
replacing the earlier allocation; when instead one call completes its
check and insertion before the other checks, the later call returns
DuplicateFiveTuple. -/
theorem claim_C9_amended (mp : List (FiveTuple × Allocation)) (k : FiveTuple)
    (a1 a2 : Allocation) (h : findAlloc mp k = none) :
    (runSched mp [{ key := k, alloc := a1, phase := CreatePhase.start },
                  { key := k, alloc := a2, phase := CreatePhase.start }] [0, 1, 0, 1]).2 =
      [{ key := k, alloc := a1, phase := CreatePhase.done (Except.ok a1) },
       { key := k, alloc := a2, phase := CreatePhase.done (Except.ok a2) }] ∧
    (runSched mp [{ key := k, alloc := a1, phase := CreatePhase.start },
                  { key := k, alloc := a2, phase := CreatePhase.start }] [0, 0, 1]).2 =
      [{ key := k, alloc := a1, phase := CreatePhase.done (Except.ok a1) },
       { key := k, alloc := a2,
         phase := CreatePhase.done (Except.error Error.errDupeFiveTuple) }] := by
  constructor
  · simp [runSched, stepCreate, h]
  · simp [runSched, stepCreate, h, findAlloc_insertAlloc_self]

theorem claim_C9_amended_witness :
    findAlloc [(sampleTuple2, sampleAllocB)] sampleTuple = none ∧
    ((runSched [(sampleTuple2, sampleAllocB)]
        [{ key := sampleTuple, alloc := sampleAlloc, phase := CreatePhase.start },
         { key := sampleTuple, alloc := sampleAlloc2, phase := CreatePhase.start }]
        [0, 1, 0, 1]).2 =
      [{ key := sampleTuple, alloc := sampleAlloc,
         phase := CreatePhase.done (Except.ok sampleAlloc) },
       { key := sampleTuple, alloc := sampleAlloc2,
         phase := CreatePhase.done (Except.ok sampleAlloc2) }] ∧
    (runSched [(sampleTuple2, sampleAllocB)]
        [{ key := sampleTuple, alloc := sampleAlloc, phase := CreatePhase.start },
         { key := sampleTuple, alloc := sampleAlloc2, phase := CreatePhase.start }]
        [0, 0, 1]).2 =
      [{ key := sampleTuple, alloc := sampleAlloc,
         phase := CreatePhase.done (Except.ok sampleAlloc) },
       { key := sampleTuple, alloc := sampleAlloc2,
         phase := CreatePhase.done (Except.error Error.errDupeFiveTuple) }]) :=
  ⟨by decide, claim_C9_amended [(sampleTuple2, sampleAllocB)] sampleTuple
    sampleAlloc sampleAlloc2 (by decide)⟩
